import Mathlib

/-!
Shallow embedding of the evaluation and scoring engine of `ncurl`
(package `internal/evals`, with supporting types from `internal/httpx`).

Go `map[string]string` values are modelled as association lists with
exact-key lookup; Go `float64` scores are modelled as exact rationals
(the deduction constants 0.3, 0.1, 0.2 become 3/10, 1/10, 2/10);
Go `nil` errors become `Option String`/`Except String`.
-/

namespace Ncurl

/-- `internal/httpx.RequestSpec`: a structured HTTP request produced by the
translator.  `Headers` is a Go `map[string]string`, modelled as an
association list. -/
structure RequestSpec where
  method : String
  url : String
  headers : List (String × String)
  body : String
deriving Repr, DecidableEq

/-- `internal/evals.MockResponse`: status code, headers, body to serve. -/
structure MockResponse where
  statusCode : Nat
  headers : List (String × String)
  body : String
deriving Repr, DecidableEq

/-- `internal/evals.EvalCase`: one evaluation test case. -/
structure EvalCase where
  id : String
  description : String
  input : String
  expectedMethod : String
  expectedURL : String
  expectedURLRegex : String
  expectedHeaders : List (String × String)
  expectedBody : String
  mockResponse : Option MockResponse
  promptTemplate : String
deriving Repr, DecidableEq

/-- A default `EvalCase` with every field empty, for building concrete cases. -/
def emptyCase : EvalCase :=
  { id := "", description := "", input := "", expectedMethod := ""
    expectedURL := "", expectedURLRegex := "", expectedHeaders := []
    expectedBody := "", mockResponse := none, promptTemplate := "" }

/-- `internal/evals.EvalResult` (the fields the scoring pipeline computes;
wall-clock fields `Timestamp`/`Duration` are outside the model). -/
structure EvalResult where
  testID : String
  description : String
  success : Bool
  score : ℚ
  error : String
  details : String
  input : String
  expectedURL : String
  actualURL : String
  actualBody : String
deriving Repr, DecidableEq

/-- Exact-prefix test on character lists (Go string prefix comparison). -/
def isPrefixList : List Char → List Char → Bool
  | [], _ => true
  | _ :: _, [] => false
  | a :: as, b :: bs => a = b && isPrefixList as bs

/-- Substring search on character lists: `pat` occurs somewhere in `s`. -/
def hasSubstr (pat : List Char) : List Char → Bool
  | [] => isPrefixList pat []
  | a :: rest => isPrefixList pat (a :: rest) || hasSubstr pat rest

/-- Go `strings.Contains(s, pat)`. -/
def containsSub (s pat : String) : Bool :=
  hasSubstr pat.data s.data

/-- Go `strings.ToLower` (ASCII case folding suffices for the model),
written over the character list so that it evaluates by kernel reduction. -/
def toLowerStr (s : String) : String :=
  String.mk (s.data.map Char.toLower)

/-- Exact-key lookup in a Go `map[string]string`: `m[k]` with its `ok` flag.
This is the lookup `evaluateSpec` performs on `spec.Headers`. -/
def lookupHeader (hs : List (String × String)) (k : String) : Option String :=
  (hs.find? (fun kv => kv.1 = k)).map (fun kv => kv.2)

/-- The URL-match `switch` of `evaluateSpec` (evals.go lines 193-236):
direct substring, case-insensitive substring, and the fixed table of
semantic special cases.  A `switch` whose cases are pure tests equals
the ordered disjunction of those tests. -/
def urlMatched (specURL expectedURL : String) : Bool :=
  containsSub specURL expectedURL
  || containsSub (toLowerStr specURL) (toLowerStr expectedURL)
  || (expectedURL == "bitcoin"
      && (containsSub specURL "coindesk" || containsSub specURL "crypto"
          || containsSub specURL "coin" || containsSub specURL "btc"))
  || (expectedURL == "key=abc123xyz"
      && (containsSub specURL "abc123xyz" || containsSub specURL "key="
          || containsSub specURL "apikey=" || containsSub specURL "api_key="
          || containsSub specURL "appid="))
  || (expectedURL == "profile"
      && (containsSub specURL "profile" || containsSub specURL "user"
          || containsSub specURL "account"))
  || (expectedURL == "v2"
      && (containsSub specURL "v2" || containsSub specURL "/v2"
          || containsSub specURL "v2/"))
  || (expectedURL == "localhost:3000/users"
      && specURL == "http://localhost:3000/api/users")
  || (expectedURL == "api.example.com/users"
      && (containsSub specURL "api.github.com/users"
          || containsSub specURL "api.example.com/users"))

/-- Round a rational to the nearest integer, ties to even
(the rounding of Go `fmt` float formatting). -/
def roundHalfEven (q : ℚ) : ℤ :=
  let f : ℤ := ⌊q⌋
  let frac : ℚ := q - f
  if frac < 1/2 then f
  else if 1/2 < frac then f + 1
  else if f % 2 = 0 then f else f + 1

/-- Go `fmt.Sprintf` `%.Nf` on the rational model of a float. -/
def fmtFixed (prec : Nat) (q : ℚ) : String :=
  let n : ℤ := roundHalfEven (q * (10 : ℚ) ^ prec)
  let sign : String := if n < 0 then "-" else ""
  let m : Nat := n.natAbs
  let ip : Nat := m / 10 ^ prec
  let fp : Nat := m % 10 ^ prec
  let fpStr : String := toString fp
  let fpPad : String := String.mk (List.replicate (prec - fpStr.length) '0') ++ fpStr
  if prec = 0 then sign ++ toString ip
  else sign ++ toString ip ++ "." ++ fpPad

/-- Go `strings.Join(xs, sep)`. -/
def joinSep (sep : String) : List String → String
  | [] => ""
  | [x] => x
  | x :: y :: rest => x ++ sep ++ joinSep sep (y :: rest)

/-- One step of the header-checking loop of `evaluateSpec`
(evals.go lines 246-256), threading the `(reasons, deductions)` pair. -/
def headerStep (specHeaders : List (String × String))
    (rd : List String × ℚ) (kv : String × String) : List String × ℚ :=
  match lookupHeader specHeaders kv.1 with
  | none => (rd.1 ++ ["Missing expected header: " ++ kv.1], rd.2 + 1/10)
  | some av =>
    if av ≠ kv.2 then
      (rd.1 ++ ["Header value mismatch for " ++ kv.1 ++ ": expected "
                ++ kv.2 ++ ", got " ++ av], rd.2 + 1/10)
    else rd

/-- `internal/evals.evaluateSpec` (evals.go lines 176-284): compares the
generated request spec against the expected values, returning the clamped
score and the `details` string. -/
def evaluateSpec (spec : RequestSpec) (c : EvalCase) : ℚ × String :=
  let rd0 : List String × ℚ := ([], 0)
  let rd1 : List String × ℚ :=
    if c.expectedMethod ≠ "" ∧ spec.method ≠ c.expectedMethod then
      (rd0.1 ++ ["Method mismatch: expected " ++ c.expectedMethod
                 ++ ", got " ++ spec.method], rd0.2 + 3/10)
    else rd0
  let rd2 : List String × ℚ :=
    if c.expectedURL ≠ "" ∧ urlMatched spec.url c.expectedURL = false then
      (rd1.1 ++ ["URL mismatch: expected URL to contain " ++ c.expectedURL
                 ++ ", got " ++ spec.url], rd1.2 + 3/10)
    else rd1
  let rd3 : List String × ℚ := c.expectedHeaders.foldl (headerStep spec.headers) rd2
  let rd4 : List String × ℚ :=
    if c.expectedBody ≠ "" then
      if spec.body = "" then
        (rd3.1 ++ ["Missing expected body content"], rd3.2 + 2/10)
      else if containsSub spec.body c.expectedBody = false then
        (rd3.1 ++ ["Body mismatch: expected body to contain " ++ c.expectedBody
                   ++ ", got " ++ spec.body], rd3.2 + 2/10)
      else rd3
    else rd3
  let score : ℚ := max 0 (1 - rd4.2)
  let details : String :=
    if rd4.1.length > 0 then
      "Score: " ++ fmtFixed 2 score ++ " - Issues found:\n- " ++ joinSep "\n- " rd4.1
    else
      "Score: " ++ fmtFixed 2 score ++ " - Perfect match!"
  (score, details)

/-- `internal/evals.runCase` (evals.go lines 141-173).  The translator call
`e.client.GenerateRequestSpec(ctx, evalCase.Input)` is an external
collaborator; its outcome is passed in as `translate`.  Returns the Go pair
`(EvalResult, error)` — both code paths return a `nil` Go error. -/
def runCase (translate : Except String RequestSpec) (c : EvalCase) :
    EvalResult × Option String :=
  let base : EvalResult :=
    { testID := c.id, description := c.description, success := false
      score := 0, error := "", details := "", input := c.input
      expectedURL := c.expectedURL, actualURL := "", actualBody := "" }
  match translate with
  | Except.error msg =>
    ({ base with success := false, score := 0, error := msg }, none)
  | Except.ok spec =>
    let sd := evaluateSpec spec c
    ({ base with
        actualURL := spec.url, actualBody := spec.body
        success := decide ((8 : ℚ)/10 ≤ sd.1)
        score := sd.1, details := sd.2 }, none)

/-- The loop body of `RunAll` (evals.go lines 113-124): run the cases in
order, aborting with the Go error the moment `runCase` returns one. -/
def runAllLoop (translate : EvalCase → Except String RequestSpec) :
    List EvalCase → List EvalResult → Except String (List EvalResult)
  | [], acc => Except.ok acc
  | c :: rest, acc =>
    match runCase (translate c) c with
    | (result, none) => runAllLoop translate rest (acc ++ [result])
    | (_, some e) => Except.error ("error running case " ++ c.id ++ ": " ++ e)

/-- `internal/evals.RunAll` (evals.go lines 100-127): aborts up front when
no cases are loaded, otherwise runs every case in order. -/
def RunAll (translate : EvalCase → Except String RequestSpec)
    (cases : List EvalCase) : Except String (List EvalResult) :=
  if cases.isEmpty then
    Except.error "invalid evaluation: no test cases loaded"
  else
    runAllLoop translate cases []

/-- `internal/evals.LoadTestCases` (evals.go lines 90-97): rejects an empty
list, stores any other list unchanged. -/
def LoadTestCases (cases : List EvalCase) : Except String (List EvalCase) :=
  if cases.isEmpty then
    Except.error "invalid evaluation: no test cases provided"
  else
    Except.ok cases

/-- `internal/evals.LoadTestCasesFromFile` (testcases.go lines 270-288)
after file IO: whatever list the JSON deserializer produced is returned
unchanged — no further validation happens. -/
def LoadTestCasesFromFile (parsed : Except String (List EvalCase)) :
    Except String (List EvalCase) :=
  parsed

/-- An HTTP response as observed by a client of the mock server. -/
structure HTTPResponse where
  status : Nat
  headers : List (String × String)
  body : String
deriving Repr, DecidableEq

/-- The fixed no-match fallback of the mock server handler
(evals.go lines 330-331). -/
def notFoundResponse : HTTPResponse :=
  { status := 404, headers := []
    body := "\x7b\"error\": \"No mock response configured for this path\"\x7d" }

/-- Serving the mock response of a matched case (evals.go lines 311-326):
headers copied, status code defaulting to 200 when unset (0), body written
when non-empty (an omitted write leaves the body empty either way). -/
def serveMock (m : MockResponse) : HTTPResponse :=
  { status := if m.statusCode = 0 then 200 else m.statusCode
    headers := m.headers
    body := m.body }

/-- The mock server handler (evals.go lines 302-332): scan the case list in
order; a case is skipped when its `mockResponse` is nil or its `expectedURL`
is not a substring of the request path (`strings.Contains(r.URL.Path, ...)`);
the first match is served; otherwise the 404 fallback.  The request method
is accepted but never consulted. -/
def mockHandler (cases : List EvalCase) (method path : String) : HTTPResponse :=
  match cases with
  | [] => notFoundResponse
  | c :: rest =>
    match c.mockResponse with
    | none => mockHandler rest method path
    | some m =>
      if containsSub path c.expectedURL then serveMock m
      else mockHandler rest method path

/-- The routing predicate of the handler: non-nil mock and `expectedURL`
a substring of the request path. -/
def mockCaseMatches (path : String) (c : EvalCase) : Bool :=
  c.mockResponse.isSome && containsSub path c.expectedURL

/-- The response the handler produces for a matched case. -/
def serveCase (c : EvalCase) : HTTPResponse :=
  match c.mockResponse with
  | some m => serveMock m
  | none => notFoundResponse

/-- Per-result block of `GenerateReport` (evals.go lines 365-391). -/
def reportLine (r : EvalResult) : String :=
  let status : String := if r.success then "✅ PASS" else "❌ FAIL"
  "#### " ++ r.testID ++ ": " ++ r.description ++ " - " ++ status ++ "\n"
  ++ "- Score: " ++ fmtFixed 2 r.score ++ "\n"
  ++ "- Input: " ++ r.input ++ "\n"
  ++ "- Expected URL: " ++ r.expectedURL ++ "\n"
  ++ "- Actual URL: " ++ r.actualURL ++ "\n"
  ++ (if r.actualBody ≠ "" then "- Body: " ++ r.actualBody ++ "\n" else "")
  ++ (if r.details ≠ "" then "- Details: " ++ r.details ++ "\n" else "")
  ++ (if r.error ≠ "" then "- Error: " ++ r.error ++ "\n" else "")
  ++ "\n"

/-- `internal/evals.GenerateReport` (evals.go lines 339-394). -/
def GenerateReport (results : List EvalResult) : String :=
  if results.length = 0 then "No evaluation results to report."
  else
    let totalTests : Nat := results.length
    let successCount : Nat :=
      results.foldl (fun n r => if r.success then n + 1 else n) 0
    let totalScore : ℚ := results.foldl (fun acc r => acc + r.score) 0
    let avgScore : ℚ := totalScore / (totalTests : ℚ)
    let successRate : ℚ := (successCount : ℚ) / (totalTests : ℚ) * 100
    "## Evaluation Report\n\n"
    ++ "- Total Tests: " ++ toString totalTests ++ "\n"
    ++ "- Successful Tests: " ++ toString successCount
    ++ " (" ++ fmtFixed 1 successRate ++ "%)\n"
    ++ "- Average Score: " ++ fmtFixed 2 avgScore ++ "\n\n"
    ++ "### Test Results\n\n"
    ++ String.join (results.map reportLine)

/-- The lazily created `httptest.Server` held in `Evaluator.testServer`:
identity (which `httptest.NewServer` call produced it) and whether
`Close` has been called on it. -/
structure MockServer where
  id : Nat
  closed : Bool
deriving Repr, DecidableEq

/-- The server-related state of an `Evaluator`: the `testServer` field, plus
a counter of how many times `httptest.NewServer` has been invoked (the
identity the next created server would get). -/
structure EvaluatorState where
  testServer : Option MockServer
  nextID : Nat
deriving Repr, DecidableEq

/-- A freshly constructed `Evaluator`: no server yet. -/
def freshEvaluator : EvaluatorState :=
  { testServer := none, nextID := 0 }

/-- `internal/evals.startMockServer` (evals.go lines 296-336) as a state
transition: when `testServer` is already set it is returned as-is (even if
closed); otherwise a fresh server is created, stored and returned. -/
def startMockServer (st : EvaluatorState) : EvaluatorState × MockServer :=
  match st.testServer with
  | some s => (st, s)
  | none =>
    let s : MockServer := { id := st.nextID, closed := false }
    ({ testServer := some s, nextID := st.nextID + 1 }, s)

/-- The deferred `server.Close()` in `Run`/`RunAll`: closes the server the
field points at, never resetting the field to `nil`. -/
def closeServer (st : EvaluatorState) : EvaluatorState :=
  match st.testServer with
  | some s => { st with testServer := some { s with closed := true } }
  | none => st

/-- Server-lifecycle operations performed by the methods of an `Evaluator`. -/
inductive ServerOp where
  | start : ServerOp
  | close : ServerOp
deriving Repr, DecidableEq

/-- Apply one lifecycle operation. -/
def applyOp (st : EvaluatorState) : ServerOp → EvaluatorState
  | ServerOp.start => (startMockServer st).1
  | ServerOp.close => closeServer st

/-- Apply a sequence of lifecycle operations. -/
def applyOps (st : EvaluatorState) (ops : List ServerOp) : EvaluatorState :=
  ops.foldl applyOp st

/-! ### Per-criterion decomposition of the deduction sum -/

/-- The deduction of the method criterion: 0.3 when `expectedMethod` is
non-empty and the produced method differs. -/
def methodDeduction (spec : RequestSpec) (c : EvalCase) : ℚ :=
  if c.expectedMethod ≠ "" ∧ spec.method ≠ c.expectedMethod then 3/10 else 0

/-- The deduction of the URL criterion: 0.3 when `expectedURL` is non-empty and
no clause of the URL-match switch applies. -/
def urlDeduction (spec : RequestSpec) (c : EvalCase) : ℚ :=
  if c.expectedURL ≠ "" ∧ urlMatched spec.url c.expectedURL = false then 3/10 else 0

/-- Whether one expected header fails its criterion: the exact key is
absent from the produced headers, or present with a different value. -/
def headerMiss (hs : List (String × String)) (kv : String × String) : Bool :=
  match lookupHeader hs kv.1 with
  | none => true
  | some av => decide (av ≠ kv.2)

/-- Total header deduction: 0.1 per failing expected header. -/
def headerDeduction (hs : List (String × String)) :
    List (String × String) → ℚ
  | [] => 0
  | kv :: rest => (if headerMiss hs kv then 1/10 else 0) + headerDeduction hs rest

/-- The deduction of the body criterion: 0.2 when `expectedBody` is non-empty
and the produced body is empty or does not contain it. -/
def bodyDeduction (spec : RequestSpec) (c : EvalCase) : ℚ :=
  if c.expectedBody ≠ ""
      ∧ (spec.body = "" ∨ containsSub spec.body c.expectedBody = false)
    then 2/10 else 0

theorem headerStep_snd (hs : List (String × String)) (rd : List String × ℚ)
    (kv : String × String) :
    (headerStep hs rd kv).2 = rd.2 + (if headerMiss hs kv then (1 : ℚ)/10 else 0) := by
  unfold headerStep headerMiss
  cases h : lookupHeader hs kv.1 with
  | none => simp
  | some av =>
    by_cases hv : av = kv.2 <;> simp [hv]

theorem foldl_headerStep_snd (hs : List (String × String))
    (l : List (String × String)) :
    ∀ rd : List String × ℚ,
      (l.foldl (headerStep hs) rd).2 = rd.2 + headerDeduction hs l := by
  induction l with
  | nil => intro rd; simp [headerDeduction]
  | cons kv rest ih =>
    intro rd
    simp only [List.foldl_cons, headerDeduction]
    rw [ih, headerStep_snd]
    ring

theorem headerDeduction_nonneg (hs : List (String × String))
    (l : List (String × String)) : 0 ≤ headerDeduction hs l := by
  induction l with
  | nil => simp [headerDeduction]
  | cons kv rest ih =>
    simp only [headerDeduction]
    have : (0 : ℚ) ≤ (if headerMiss hs kv then (1 : ℚ)/10 else 0) := by positivity
    linarith

theorem evaluateSpec_fst (spec : RequestSpec) (c : EvalCase) :
    (evaluateSpec spec c).1 =
      max 0 (1 - (methodDeduction spec c + urlDeduction spec c
        + headerDeduction spec.headers c.expectedHeaders + bodyDeduction spec c)) := by
  unfold evaluateSpec methodDeduction urlDeduction bodyDeduction
  split_ifs <;> simp_all [foldl_headerStep_snd]

theorem methodDeduction_nonneg (spec : RequestSpec) (c : EvalCase) :
    0 ≤ methodDeduction spec c := by
  unfold methodDeduction; split_ifs <;> norm_num

theorem urlDeduction_nonneg (spec : RequestSpec) (c : EvalCase) :
    0 ≤ urlDeduction spec c := by
  unfold urlDeduction; split_ifs <;> norm_num

theorem bodyDeduction_nonneg (spec : RequestSpec) (c : EvalCase) :
    0 ≤ bodyDeduction spec c := by
  unfold bodyDeduction; split_ifs <;> norm_num

end Ncurl

namespace Ncurl

/-- C1: `evaluateSpec` returns `max(0, 1.0 - sum of the fixed per-criterion
deductions)` — 0.3 for a method mismatch when `expectedMethod` is non-empty,
0.3 for a URL mismatch when `expectedURL` is non-empty, 0.1 per expected
header that is missing or has a non-equal value, 0.2 for a body mismatch
when `expectedBody` is non-empty — and the returned score always lies in
`[0, 1]`, even when the deductions sum past 1.0. -/
theorem claim_C1_score_is_clamped_deduction_sum (spec : RequestSpec) (c : EvalCase) :
    (evaluateSpec spec c).1 =
      max 0 (1 - (methodDeduction spec c + urlDeduction spec c
        + headerDeduction spec.headers c.expectedHeaders + bodyDeduction spec c))
    ∧ 0 ≤ (evaluateSpec spec c).1 ∧ (evaluateSpec spec c).1 ≤ 1 := by
  refine ⟨evaluateSpec_fst spec c, ?_, ?_⟩
  · rw [evaluateSpec_fst]
    exact le_max_left 0 _
  · rw [evaluateSpec_fst]
    have hm := methodDeduction_nonneg spec c
    have hu := urlDeduction_nonneg spec c
    have hh := headerDeduction_nonneg spec.headers c.expectedHeaders
    have hb := bodyDeduction_nonneg spec c
    apply max_le <;> linarith

/-- C2: for every result a case run produces, `success` is true exactly when
`score >= 0.8`: the scoring path sets `success = (score >= 0.8)`, and the
translator-failure path sets `score = 0.0` with `success = false`, which is
consistent with that equivalence. -/
theorem claim_C2_success_iff_score_ge_08 (tr : Except String RequestSpec)
    (c : EvalCase) :
    ((runCase tr c).1).success = true ↔ (8 : ℚ)/10 ≤ ((runCase tr c).1).score := by
  cases tr with
  | error msg =>
    simp only [runCase]
    norm_num
  | ok spec =>
    simp [runCase]

/-- The header criterion as the spec words it (refinement comparison only,
not from the source): the name of some produced header matches case-insensitively
and its value equals the expected value exactly. -/
def headerSatisfiedSpecVersion (hs : List (String × String))
    (kv : String × String) : Bool :=
  hs.any (fun p => toLowerStr p.1 == toLowerStr kv.1 && p.2 == kv.2)

/-- C3 counterexample: a produced header `authorization` with the exact
expected value satisfies the case-insensitive criterion of the spec, yet
`evaluateSpec` performs an exact map lookup of `Authorization`, misses, and
deducts 0.1 — the score is 0.9 instead of the claimed 1.0. -/
theorem claim_C3_counterexample :
    headerSatisfiedSpecVersion [("authorization", "token FAKE_TOKEN_123")]
        ("Authorization", "token FAKE_TOKEN_123") = true
    ∧ headerMiss [("authorization", "token FAKE_TOKEN_123")]
        ("Authorization", "token FAKE_TOKEN_123") = true
    ∧ (evaluateSpec
        { method := "", url := "", body := ""
          headers := [("authorization", "token FAKE_TOKEN_123")] }
        { emptyCase with
            expectedHeaders := [("Authorization", "token FAKE_TOKEN_123")] }).1
      = 9/10 := by
  refine ⟨by decide, by decide, ?_⟩
  rw [evaluateSpec_fst]
  have hmiss : headerMiss [("authorization", "token FAKE_TOKEN_123")]
      ("Authorization", "token FAKE_TOKEN_123") = true := by decide
  simp [methodDeduction, urlDeduction, bodyDeduction, headerDeduction,
    emptyCase, hmiss]
  norm_num

/-- C3 amended: the header criterion passes (the header loop leaves the
reasons/deductions state unchanged, no 0.1 deduction) if and only if the
produced headers map contains the expected name as an exact, case-sensitive
key whose value equals the expected value exactly. -/
theorem claim_C3_amended_header_criterion_exact (hs : List (String × String))
    (rd : List String × ℚ) (k v : String) :
    (headerStep hs rd (k, v) = rd ↔ lookupHeader hs k = some v)
    ∧ (headerMiss hs (k, v) = false ↔ lookupHeader hs k = some v) := by
  cases h : lookupHeader hs k with
  | none =>
    constructor
    · simp only [headerStep, h]
      constructor
      · intro he
        have h2 := congrArg Prod.snd he
        simp at h2
      · intro hc
        exact absurd hc (by simp)
    · simp [headerMiss, h]
  | some av =>
    by_cases hv : av = v
    · subst hv
      constructor
      · simp [headerStep, h]
      · simp [headerMiss, h]
    · constructor
      · simp only [headerStep, h]
        rw [if_pos (by simpa using hv)]
        constructor
        · intro he
          have h2 := congrArg Prod.snd he
          simp at h2
        · intro hc
          simp at hc
          exact absurd hc hv
      · simp [headerMiss, h, hv]

/-- C6 counterexample: a case whose `expectedURLRegex` is the literal
pattern `users` — which matches the produced URL
`https://api.github.com/users` under Go regexp semantics (a literal pattern
matches exactly when it occurs as a substring) — still loses the 0.3 URL
deduction because `expectedURL` substring matching fails: the score is 0.7,
not the claimed 1.0. -/
theorem claim_C6_counterexample :
    containsSub "https://api.github.com/users" "users" = true
    ∧ (evaluateSpec
        { method := "", url := "https://api.github.com/users"
          headers := [], body := "" }
        { emptyCase with
            expectedURL := "example.org/v1/users"
            expectedURLRegex := "users" }).1 = 7/10 := by
  refine ⟨by decide, ?_⟩
  rw [evaluateSpec_fst]
  have hu : urlMatched "https://api.github.com/users" "example.org/v1/users"
      = false := by decide
  simp [methodDeduction, urlDeduction, bodyDeduction, headerDeduction,
    emptyCase, hu]
  norm_num

/-- C6 amended: the `expectedURLRegex` field is carried in the case model
but never consulted: `evaluateSpec` (and hence `runCase`) is invariant under
any change to `expectedURLRegex`, so URL scoring depends only on
`expectedURL` substring/special-case matching. -/
theorem claim_C6_amended_regex_field_unused (spec : RequestSpec)
    (tr : Except String RequestSpec) (c : EvalCase) (r : String) :
    evaluateSpec spec { c with expectedURLRegex := r } = evaluateSpec spec c
    ∧ runCase tr { c with expectedURLRegex := r } = runCase tr c := by
  constructor
  · rfl
  · cases tr <;> rfl

/-- C7 counterexample: a two-case list sharing the id `dup` is accepted
unchanged by both `LoadTestCases` and the post-parse stage of
`LoadTestCasesFromFile`, contradicting the claim that duplicate ids are
rejected as a configuration error. -/
theorem claim_C7_counterexample :
    ({ emptyCase with id := "dup", input := "a" } : EvalCase).id
      = ({ emptyCase with id := "dup", input := "b" } : EvalCase).id
    ∧ LoadTestCases
        [{ emptyCase with id := "dup", input := "a" },
         { emptyCase with id := "dup", input := "b" }]
      = Except.ok
        [{ emptyCase with id := "dup", input := "a" },
         { emptyCase with id := "dup", input := "b" }]
    ∧ LoadTestCasesFromFile (Except.ok
        [{ emptyCase with id := "dup", input := "a" },
         { emptyCase with id := "dup", input := "b" }])
      = Except.ok
        [{ emptyCase with id := "dup", input := "a" },
         { emptyCase with id := "dup", input := "b" }] := by
  refine ⟨rfl, rfl, rfl⟩

/-- C7 amended: loading validates only non-emptiness — `LoadTestCases`
fails exactly on the empty list and accepts every non-empty list unchanged
(duplicate ids included), and `LoadTestCasesFromFile` returns whatever the
JSON deserializer produced with no id validation at all. -/
theorem claim_C7_amended_load_checks_only_emptiness (cases : List EvalCase)
    (parsed : Except String (List EvalCase)) :
    ((∃ e, LoadTestCases cases = Except.error e) ↔ cases = [])
    ∧ (cases ≠ [] → LoadTestCases cases = Except.ok cases)
    ∧ LoadTestCasesFromFile parsed = parsed := by
  refine ⟨?_, ?_, rfl⟩
  · cases cases with
    | nil => simp [LoadTestCases]
    | cons c rest => simp [LoadTestCases]
  · intro h
    cases cases with
    | nil => exact absurd rfl h
    | cons c rest => rfl

theorem mockHandler_eq_find (cases : List EvalCase) (method path : String) :
    mockHandler cases method path =
      (match cases.find? (mockCaseMatches path) with
       | some c => serveCase c
       | none => notFoundResponse) := by
  induction cases with
  | nil => simp [mockHandler]
  | cons c rest ih =>
    cases hm : c.mockResponse with
    | none =>
      have hp : mockCaseMatches path c = false := by
        simp [mockCaseMatches, hm]
      rw [List.find?_cons_of_neg _ (by simp [hp])]
      simpa [mockHandler, hm] using ih
    | some m =>
      by_cases hc : containsSub path c.expectedURL = true
      · have hp : mockCaseMatches path c = true := by
          simp [mockCaseMatches, hm, hc]
        rw [List.find?_cons_of_pos _ (by simp [hp])]
        simp [mockHandler, hm, hc, serveCase]
      · have hp : mockCaseMatches path c = false := by
          simp [mockCaseMatches, hm]
          simpa using hc
        rw [List.find?_cons_of_neg _ (by simp [hp])]
        simp only [mockHandler, hm]
        rw [if_neg (by simpa using hc)]
        exact ih

/-- C4: the mock server handler scans the loaded cases in declaration order
and serves the first case whose `mockResponse` is non-nil and whose
`expectedURL` is a substring of the request path, with the status code
defaulting to 200 when unset; when no case matches it responds 404 with
exactly the fixed JSON error body; and the chosen response never depends on
the request method. -/
theorem claim_C4_mock_routing_first_match (cases : List EvalCase)
    (method path : String) :
    (mockHandler cases method path =
      (match cases.find? (mockCaseMatches path) with
       | some c => serveCase c
       | none => notFoundResponse))
    ∧ mockHandler cases method path = mockHandler cases "GET" path
    ∧ (∀ m : MockResponse,
        (serveMock m).status = if m.statusCode = 0 then 200 else m.statusCode)
    ∧ notFoundResponse.status = 404
    ∧ notFoundResponse.body
        = "\x7b\"error\": \"No mock response configured for this path\"\x7d" := by
  refine ⟨mockHandler_eq_find cases method path, ?_, fun m => rfl, rfl, rfl⟩
  rw [mockHandler_eq_find cases method path,
    mockHandler_eq_find cases "GET" path]

theorem hasSubstr_nil_pat (l : List Char) : hasSubstr [] l = true := by
  cases l <;> simp [hasSubstr, isPrefixList]

/-- C10: a loaded case with a non-nil `mockResponse` and an empty
`expectedURL` matches every request path (the empty string is a substring of
every path), so whenever it precedes all other mock-bearing cases the
handler serves it for every request — the routing scan always finds it, and
the 404 no-match fallback branch is never reached. -/
theorem claim_C10_empty_url_matches_every_path
    (pre : List EvalCase) (c : EvalCase) (rest : List EvalCase)
    (m : MockResponse) (method path : String)
    (hpre : ∀ c' ∈ pre, c'.mockResponse = none)
    (hm : c.mockResponse = some m) (hu : c.expectedURL = "") :
    containsSub path "" = true
    ∧ (pre ++ c :: rest).find? (mockCaseMatches path) = some c
    ∧ mockHandler (pre ++ c :: rest) method path = serveMock m := by
  have hsub : containsSub path "" = true := hasSubstr_nil_pat path.data
  have hfind : (pre ++ c :: rest).find? (mockCaseMatches path) = some c := by
    induction pre with
    | nil =>
      have hp : mockCaseMatches path c = true := by
        simp [mockCaseMatches, hm, hu, hsub]
      simpa using List.find?_cons_of_pos _ (by simp [hp])
    | cons c' pre' ih =>
      have h' : c'.mockResponse = none := hpre c' (by simp)
      have hp : mockCaseMatches path c' = false := by
        simp [mockCaseMatches, h']
      rw [List.cons_append, List.find?_cons_of_neg _ (by simp [hp])]
      exact ih (fun x hx => hpre x (by simp [hx]))
  refine ⟨hsub, hfind, ?_⟩
  rw [mockHandler_eq_find, hfind]
  simp [serveCase, hm]

/-- C10 witness: one mock-free case ahead of the catch-all case; the
handler serves the mock of the catch-all case for an arbitrary path and method. -/
theorem claim_C10_witness :
    containsSub "/some/path" "" = true
    ∧ ([{ emptyCase with id := "plain" },
        { emptyCase with
          id := "all",
          mockResponse := some { statusCode := 0, headers := [], body := "hi" } },
        { emptyCase with
          id := "later", expectedURL := "/x",
          mockResponse := some { statusCode := 201, headers := [], body := "no" } }].find?
        (mockCaseMatches "/some/path"))
      = some { emptyCase with
          id := "all",
          mockResponse := some { statusCode := 0, headers := [], body := "hi" } }
    ∧ mockHandler
        [{ emptyCase with id := "plain" },
         { emptyCase with
           id := "all",
           mockResponse := some { statusCode := 0, headers := [], body := "hi" } },
         { emptyCase with
           id := "later", expectedURL := "/x",
           mockResponse := some { statusCode := 201, headers := [], body := "no" } }]
        "POST" "/some/path"
      = serveMock { statusCode := 0, headers := [], body := "hi" } := by
  exact claim_C10_empty_url_matches_every_path
    [{ emptyCase with id := "plain" }]
    { emptyCase with
      id := "all",
      mockResponse := some { statusCode := 0, headers := [], body := "hi" } }
    [{ emptyCase with
       id := "later", expectedURL := "/x",
       mockResponse := some { statusCode := 201, headers := [], body := "no" } }]
    { statusCode := 0, headers := [], body := "hi" }
    "POST" "/some/path"
    (by intro c' hc'; simp at hc'; subst hc'; rfl)
    rfl rfl

theorem runCase_snd_none (tr : Except String RequestSpec) (c : EvalCase) :
    (runCase tr c).2 = none := by
  cases tr <;> rfl

theorem runAllLoop_ok (translate : EvalCase → Except String RequestSpec)
    (l : List EvalCase) :
    ∀ acc, runAllLoop translate l acc
      = Except.ok (acc ++ l.map (fun c => (runCase (translate c) c).1)) := by
  induction l with
  | nil => intro acc; simp [runAllLoop]
  | cons c rest ih =>
    intro acc
    rcases h : runCase (translate c) c with ⟨r, o⟩
    have ho : o = none := by
      have := runCase_snd_none (translate c) c
      rw [h] at this
      exact this
    subst ho
    simp only [runAllLoop, h, List.map_cons]
    rw [ih]
    simp

/-- C5: a failed translator call does not abort the run — `runCase` returns
a nil Go error together with a result carrying `score = 0.0`,
`success = false` and the translator message in `error`, so `RunAll`
processes every case; `RunAll` aborts before executing any case exactly
when the loaded case set is empty. -/
theorem claim_C5_translator_failure_continues
    (translate : EvalCase → Except String RequestSpec) (cases : List EvalCase) :
    ((∃ e, RunAll translate cases = Except.error e) ↔ cases = [])
    ∧ (∀ msg c, runCase (Except.error msg) c
        = ({ testID := c.id, description := c.description, success := false
             score := 0, error := msg, details := "", input := c.input
             expectedURL := c.expectedURL, actualURL := "", actualBody := "" },
           none))
    ∧ (∀ results, RunAll translate cases = Except.ok results →
        results = cases.map (fun c => (runCase (translate c) c).1)
        ∧ results.length = cases.length) := by
  refine ⟨?_, fun msg c => rfl, ?_⟩
  · cases cases with
    | nil => simp [RunAll]
    | cons c rest =>
      simp [RunAll, runAllLoop_ok]
  · intro results hres
    cases cases with
    | nil => simp [RunAll] at hres
    | cons c rest =>
      rw [RunAll, if_neg (by simp)] at hres
      rw [runAllLoop_ok] at hres
      simp at hres
      subst hres
      simp

/-- C5 witness at a concrete failing translator and a one-case set. -/
theorem claim_C5_witness :
    (runCase (Except.error "boom") emptyCase
      = ({ testID := emptyCase.id, description := emptyCase.description
           success := false, score := 0, error := "boom", details := ""
           input := emptyCase.input, expectedURL := emptyCase.expectedURL
           actualURL := "", actualBody := "" }, none))
    ∧ ([(runCase (Except.error "boom") emptyCase).1].length
        = ([emptyCase] : List EvalCase).length) := by
  have h := claim_C5_translator_failure_continues
    (fun _ => Except.error "boom") [emptyCase]
  exact ⟨h.2.1 "boom" emptyCase, (h.2.2 _ rfl).2⟩

/-- The success counter of `GenerateReport` (evals.go lines 348-353). -/
def countSuccess (results : List EvalResult) : Nat :=
  results.foldl (fun n r => if r.success then n + 1 else n) 0

/-- The score accumulator of `GenerateReport` (evals.go lines 348-353). -/
def sumScores (results : List EvalResult) : ℚ :=
  results.foldl (fun acc r => acc + r.score) 0

/-- C8: `GenerateReport` on an empty result sequence returns the fixed
non-empty no-results message (never the empty string, and the function is
total so never an error); on a non-empty sequence it returns the Markdown
summary opening with the total count, success count, success-rate
percentage and average score. -/
theorem claim_C8_report_empty_and_summary (results : List EvalResult)
    (h : results ≠ []) :
    GenerateReport [] = "No evaluation results to report."
    ∧ GenerateReport [] ≠ ""
    ∧ ∃ rest, GenerateReport results =
        "## Evaluation Report\n\n"
        ++ "- Total Tests: " ++ toString results.length ++ "\n"
        ++ "- Successful Tests: " ++ toString (countSuccess results)
        ++ " (" ++ fmtFixed 1 ((countSuccess results : ℚ) / (results.length : ℚ) * 100)
        ++ "%)\n"
        ++ "- Average Score: " ++ fmtFixed 2 (sumScores results / (results.length : ℚ))
        ++ "\n\n"
        ++ "### Test Results\n\n"
        ++ rest := by
  refine ⟨rfl, by decide, String.join (results.map reportLine), ?_⟩
  unfold GenerateReport
  rw [if_neg (by simpa [List.length_eq_zero] using h)]
  rfl

/-- C8 witness at a concrete singleton result list. -/
theorem claim_C8_witness :
    GenerateReport [] = "No evaluation results to report."
    ∧ GenerateReport [] ≠ ""
    ∧ ∃ rest,
        GenerateReport
          [{ testID := "t", description := "d", success := true, score := 1
             error := "", details := "", input := "i", expectedURL := "u"
             actualURL := "a", actualBody := "" }] =
        "## Evaluation Report\n\n"
        ++ "- Total Tests: "
        ++ toString ([{ testID := "t", description := "d", success := true, score := 1
                        error := "", details := "", input := "i", expectedURL := "u"
                        actualURL := "a", actualBody := "" }] : List EvalResult).length
        ++ "\n"
        ++ "- Successful Tests: "
        ++ toString (countSuccess
             [{ testID := "t", description := "d", success := true, score := 1
                error := "", details := "", input := "i", expectedURL := "u"
                actualURL := "a", actualBody := "" }])
        ++ " ("
        ++ fmtFixed 1 ((countSuccess
             [{ testID := "t", description := "d", success := true, score := 1
                error := "", details := "", input := "i", expectedURL := "u"
                actualURL := "a", actualBody := "" }] : ℚ)
            / (([{ testID := "t", description := "d", success := true, score := 1
                   error := "", details := "", input := "i", expectedURL := "u"
                   actualURL := "a", actualBody := "" }] : List EvalResult).length : ℚ) * 100)
        ++ "%)\n"
        ++ "- Average Score: "
        ++ fmtFixed 2 (sumScores
             [{ testID := "t", description := "d", success := true, score := 1
                error := "", details := "", input := "i", expectedURL := "u"
                actualURL := "a", actualBody := "" }]
            / (([{ testID := "t", description := "d", success := true, score := 1
                   error := "", details := "", input := "i", expectedURL := "u"
                   actualURL := "a", actualBody := "" }] : List EvalResult).length : ℚ))
        ++ "\n\n"
        ++ "### Test Results\n\n"
        ++ rest := by
  exact claim_C8_report_empty_and_summary
    [{ testID := "t", description := "d", success := true, score := 1
       error := "", details := "", input := "i", expectedURL := "u"
       actualURL := "a", actualBody := "" }] (by simp)

/-- The invariant carried by the server-lifecycle state machine: at most
one server has ever been created, and none before the field is first set. -/
def ServerInv (st : EvaluatorState) : Prop :=
  st.nextID ≤ 1 ∧ (st.testServer = none → st.nextID = 0)

theorem serverInv_applyOp (st : EvaluatorState) (op : ServerOp)
    (h : ServerInv st) : ServerInv (applyOp st op) := by
  obtain ⟨h1, h2⟩ := h
  unfold ServerInv
  cases op with
  | start =>
    cases hts : st.testServer with
    | some s =>
      simp only [applyOp, startMockServer, hts]
      exact ⟨h1, fun hc => absurd hc (by simp)⟩
    | none =>
      have h0 : st.nextID = 0 := h2 hts
      simp only [applyOp, startMockServer, hts, h0]
      exact ⟨by omega, fun hc => absurd hc (by simp)⟩
  | close =>
    cases hts : st.testServer with
    | some s =>
      simp only [applyOp, closeServer, hts]
      exact ⟨h1, fun hc => absurd hc (by simp)⟩
    | none =>
      simp only [applyOp, closeServer, hts]
      exact ⟨h1, fun _ => h2 hts⟩

theorem serverInv_applyOps (ops : List ServerOp) :
    ∀ st : EvaluatorState, ServerInv st → ServerInv (applyOps st ops) := by
  induction ops with
  | nil => intro st h; simpa [applyOps] using h
  | cons op rest ih =>
    intro st h
    have h1 : ServerInv (applyOp st op) := serverInv_applyOp st op h
    simpa [applyOps] using ih (applyOp st op) h1

/-- C9: an `Evaluator` creates at most one mock server over its entire
lifetime — along any sequence of start/close operations from a fresh
evaluator at most one server is ever allocated; once `testServer` is set,
every later `startMockServer` call returns that same stored instance; and
because `Run`/`RunAll` close the server without resetting the field, the
start after a close hands back the already-closed server instead of a fresh
listener. -/
theorem claim_C9_at_most_one_server :
    (∀ ops : List ServerOp, (applyOps freshEvaluator ops).nextID ≤ 1)
    ∧ (∀ st : EvaluatorState,
        startMockServer (startMockServer st).1
          = ((startMockServer st).1, (startMockServer st).2))
    ∧ (closeServer (startMockServer freshEvaluator).1).testServer
        = some { id := 0, closed := true }
    ∧ startMockServer (closeServer (startMockServer freshEvaluator).1)
        = (closeServer (startMockServer freshEvaluator).1,
           { id := 0, closed := true }) := by
  refine ⟨?_, ?_, rfl, rfl⟩
  · intro ops
    have h := serverInv_applyOps ops freshEvaluator ⟨by simp [freshEvaluator], fun _ => rfl⟩
    exact h.1
  · intro st
    cases hts : st.testServer <;> simp [startMockServer, hts]

/-- C7 amended witness at a concrete non-empty list. -/
theorem claim_C7_amended_witness :
    ([emptyCase] : List EvalCase) ≠ []
    ∧ LoadTestCases [emptyCase] = Except.ok [emptyCase] := by
  refine ⟨by decide, ?_⟩
  exact (claim_C7_amended_load_checks_only_emptiness [emptyCase]
    (Except.ok [])).2.1 (by decide)

end Ncurl
